import Mathlib

/-!
Geom.cpp: the geometry binding layer of the CARLA Python API.

A shallow embedding of `PythonAPI/carla/source/libcarla/Geom.cpp`:

* the value types the file registers (`Vector2D`, `Vector3D`, `Location`,
  `Rotation`, `Transform`, `BoundingBox`, `GeoLocation`), polymorphic in the
  component type `F` (C++ `float`, or `double` for `GeoLocation`);
* the stream operators that build the canonical string of each type, with the
  output stream modelled as the text written so far;
* `std::to_string` on floating point values, modelled on exact binary values;
* the keyword defaults of the registered constructors;
* `TransformList` and the single point overload of `Transform.transform`,
  modelled over a memory of points: a Python list holds references to
  objects, `extract<Vector3D &>` yields a reference to the point of an object,
  and the location of the transform is itself a point in that memory.
-/

namespace Geom

/-! ## Data model -/

/-- Two component vector `carla::geom::Vector2D`. -/
structure Vector2D (F : Type) where
  x : F
  y : F
  deriving DecidableEq, Repr

/-- Three component vector `carla::geom::Vector3D`. -/
structure Vector3D (F : Type) where
  x : F
  y : F
  z : F
  deriving DecidableEq, Repr

/-- World position `carla::geom::Location`, a C++ subclass of `Vector3D`
that adds no field. -/
structure Location (F : Type) extends Vector3D F
  deriving DecidableEq, Repr

/-- Angles `carla::geom::Rotation`, in degrees. -/
structure Rotation (F : Type) where
  pitch : F
  yaw : F
  roll : F
  deriving DecidableEq, Repr

/-- Pair `carla::geom::Transform` of a location and a rotation. -/
structure Transform (F : Type) where
  location : Location F
  rotation : Rotation F
  deriving DecidableEq, Repr

/-- Box `carla::geom::BoundingBox`: centre and half dimensions. -/
structure BoundingBox (F : Type) where
  location : Location F
  extent : Vector3D F
  deriving DecidableEq, Repr

/-- Geodetic triple `carla::geom::GeoLocation`; its components are `double`. -/
structure GeoLocation (D : Type) where
  latitude : D
  longitude : D
  altitude : D
  deriving DecidableEq, Repr

/-! ## Stream operators (lines 23 to 77)

`out` is the text already written to the `std::ostream`; every `<<` appends.
`to_string` stands for the `std::to_string` overload of the component type. -/

section Printing

variable {F : Type}

/-- Template `WriteVector2D` (lines 23 to 28). -/
def WriteVector2D (to_string : F → String) (out : String) (name : String)
    (vector2D : Vector2D F) : String :=
  out ++ name
    ++ "(x=" ++ to_string vector2D.x
    ++ ", y=" ++ to_string vector2D.y ++ ")"

/-- Template `WriteVector3D` (lines 30 to 36); a `Location` is passed through
its `Vector3D` base. -/
def WriteVector3D (to_string : F → String) (out : String) (name : String)
    (vector3D : Vector3D F) : String :=
  out ++ name
    ++ "(x=" ++ to_string vector3D.x
    ++ ", y=" ++ to_string vector3D.y
    ++ ", z=" ++ to_string vector3D.z ++ ")"

/-- Stream operator for `Vector2D` (lines 38 to 41). -/
def Vector2D.operatorShl (to_string : F → String) (out : String)
    (vector2D : Vector2D F) : String :=
  WriteVector2D to_string out "Vector2D" vector2D

/-- Stream operator for `Vector3D` (lines 43 to 46). -/
def Vector3D.operatorShl (to_string : F → String) (out : String)
    (vector3D : Vector3D F) : String :=
  WriteVector3D to_string out "Vector3D" vector3D

/-- Stream operator for `Location` (lines 48 to 51). -/
def Location.operatorShl (to_string : F → String) (out : String)
    (location : Location F) : String :=
  WriteVector3D to_string out "Location" location.toVector3D

/-- Stream operator for `Rotation` (lines 53 to 58). -/
def Rotation.operatorShl (to_string : F → String) (out : String)
    (rotation : Rotation F) : String :=
  out ++ "Rotation(pitch=" ++ to_string rotation.pitch
    ++ ", yaw=" ++ to_string rotation.yaw
    ++ ", roll=" ++ to_string rotation.roll ++ ")"

/-- Stream operator for `Transform` (lines 60 to 63). -/
def Transform.operatorShl (to_string : F → String) (out : String)
    (transform : Transform F) : String :=
  Rotation.operatorShl to_string
    (Location.operatorShl to_string (out ++ "Transform(") transform.location ++ ", ")
    transform.rotation ++ ")"

/-- Stream operator for `BoundingBox` (lines 65 to 70). -/
def BoundingBox.operatorShl (to_string : F → String) (out : String)
    (box : BoundingBox F) : String :=
  let out1 := Location.operatorShl to_string (out ++ "BoundingBox(") box.location ++ ", "
  let out2 := WriteVector3D to_string out1 "Extent" box.extent
  out2 ++ ")"

/-- Stream operator for `GeoLocation` (lines 72 to 77). -/
def GeoLocation.operatorShl (to_string : F → String) (out : String)
    (geo_location : GeoLocation F) : String :=
  out ++ "GeoLocation(latitude=" ++ to_string geo_location.latitude
    ++ ", longitude=" ++ to_string geo_location.longitude
    ++ ", altitude=" ++ to_string geo_location.altitude ++ ")"

/-- Binding `self_ns::str(self_ns::self)` of `Vector2D` (line 113): the text
the stream operator writes to a fresh stream. -/
def Vector2D.str (to_string : F → String) (v : Vector2D F) : String :=
  Vector2D.operatorShl to_string "" v

/-- Binding `self_ns::str(self_ns::self)` of `Vector3D` (line 137). -/
def Vector3D.str (to_string : F → String) (v : Vector3D F) : String :=
  Vector3D.operatorShl to_string "" v

/-- Binding `self_ns::str(self_ns::self)` of `Location` (line 149). -/
def Location.str (to_string : F → String) (l : Location F) : String :=
  Location.operatorShl to_string "" l

/-- Binding `self_ns::str(self_ns::self)` of `Rotation` (line 160). -/
def Rotation.str (to_string : F → String) (r : Rotation F) : String :=
  Rotation.operatorShl to_string "" r

/-- Binding `self_ns::str(self_ns::self)` of `Transform` (line 176). -/
def Transform.str (to_string : F → String) (t : Transform F) : String :=
  Transform.operatorShl to_string "" t

/-- Binding `self_ns::str(self_ns::self)` of `BoundingBox` (line 194). -/
def BoundingBox.str (to_string : F → String) (b : BoundingBox F) : String :=
  BoundingBox.operatorShl to_string "" b

/-- Binding `self_ns::str(self_ns::self)` of `GeoLocation` (line 204). -/
def GeoLocation.str (to_string : F → String) (g : GeoLocation F) : String :=
  GeoLocation.operatorShl to_string "" g

end Printing

/-! ## `std::to_string` on floating point values

The C++ standard defines `std::to_string(float)` and `std::to_string(double)`
as the text `sprintf` produces with the conversion `%f`: fixed notation with
six digits after the decimal point, the exact binary value being rounded to
the nearest multiple of `10^-6` (ties to even, the default rounding mode).
A `float` argument is first promoted to `double`, which keeps its value.
A floating point value is modelled by its exact value. -/

/-- A binary floating point value: `(-1)^neg * m * 2^e`, an infinity or a
NaN. -/
inductive FloatVal where
  | finite (neg : Bool) (m : Nat) (e : Int)
  | inf (neg : Bool)
  | nan (neg : Bool)
  deriving DecidableEq, Repr

/-- The value is an IEEE 754 binary32 datum (C++ `float`) in its unique
normal or subnormal representation. -/
def FloatVal.IsBinary32 : FloatVal → Prop
  | .finite _ m e => (2 ^ 23 ≤ m ∧ m < 2 ^ 24 ∧ -149 ≤ e ∧ e ≤ 104) ∨ (m < 2 ^ 23 ∧ e = -149)
  | .inf _ => True
  | .nan _ => True

instance (v : FloatVal) : Decidable v.IsBinary32 := by
  cases v <;> unfold FloatVal.IsBinary32 <;> infer_instance

/-- The value is an IEEE 754 binary64 datum (C++ `double`) in its unique
normal or subnormal representation. -/
def FloatVal.IsBinary64 : FloatVal → Prop
  | .finite _ m e => (2 ^ 52 ≤ m ∧ m < 2 ^ 53 ∧ -1074 ≤ e ∧ e ≤ 971) ∨ (m < 2 ^ 52 ∧ e = -1074)
  | .inf _ => True
  | .nan _ => True

instance (v : FloatVal) : Decidable v.IsBinary64 := by
  cases v <;> unfold FloatVal.IsBinary64 <;> infer_instance

/-- Quotient `num / den` rounded to the nearest natural number, ties to even. -/
def roundHalfEven (num den : Nat) : Nat :=
  let q := num / den
  let r := num % den
  if 2 * r < den then q
  else if den < 2 * r then q + 1
  else if q % 2 = 0 then q else q + 1

/-- The magnitude `m * 2^e` in units of `10^-6`, rounded to nearest, ties to
even: the number that `%f` prints. -/
def scaled6 (m : Nat) (e : Int) : Nat :=
  if 0 ≤ e then m * 2 ^ e.toNat * 10 ^ 6
  else roundHalfEven (m * 10 ^ 6) (2 ^ (-e).toNat)

/-- The six digits that `%f` prints after the decimal point, for `f < 10^6`. -/
def fracDigits (f : Nat) : List Char :=
  [Nat.digitChar (f / 100000 % 10), Nat.digitChar (f / 10000 % 10),
   Nat.digitChar (f / 1000 % 10), Nat.digitChar (f / 100 % 10),
   Nat.digitChar (f / 10 % 10), Nat.digitChar (f % 10)]

/-- The sign that `%f` prints: a minus for a set sign bit, nothing otherwise. -/
def signText (neg : Bool) : String := if neg then "-" else ""

/-- Function `std::to_string` on a floating point value: the `%f` text. -/
def to_string : FloatVal → String
  | .finite neg m e =>
    signText neg ++ Nat.repr (scaled6 m e / 10 ^ 6) ++ "."
      ++ String.mk (fracDigits (scaled6 m e % 10 ^ 6))
  | .inf neg => signText neg ++ "inf"
  | .nan neg => signText neg ++ "nan"

/-- The value of a decimal digit character. -/
def digitVal (c : Char) : Nat := c.toNat - 48

/-- The number that a list of decimal digit characters denotes. -/
def decodeDigits (cs : List Char) : Nat :=
  cs.foldl (fun acc c => 10 * acc + digitVal c) 0

/-- The `float` value `0.0f`. -/
def float_0 : FloatVal := .finite false 0 (-149)

/-- The `float` value `1.0f`, that is `2^23 * 2^-23`. -/
def float_1 : FloatVal := .finite false 8388608 (-23)

/-- The `float` value `2.0f`, that is `2^23 * 2^-22`. -/
def float_2 : FloatVal := .finite false 8388608 (-22)

/-- The `float` nearest to `0.0000001`: `14073749 * 2^-47`, about
`1.00000001e-7`. -/
def float_1em7 : FloatVal := .finite false 14073749 (-47)

/-! ## Registered constructors (`export_geom`)

The binding `init<..>((arg("x")=0.0f, ..))` lets a Python caller omit any
argument; an omitted argument (`none`) takes the registered default. The
constant `0` of the component type stands for `0.0f`, or `0.0` for `double`. -/

section Constructors

variable {F : Type} [Zero F]

/-- Modelled from the spec: the default constructor `Vector3D()` of
carla/geom/Vector3D.h, not under src/; by the spec every constructor default
is zero. -/
def Vector3D.default : Vector3D F := ⟨0, 0, 0⟩

/-- Modelled from the spec: the default constructor `Location()` of
carla/geom/Location.h, not under src/; by the spec every constructor default
is zero. -/
def Location.default : Location F := ⟨⟨0, 0, 0⟩⟩

/-- Modelled from the spec: the default constructor `Rotation()` of
carla/geom/Rotation.h, not under src/; by the spec every constructor default
is zero. -/
def Rotation.default : Rotation F := ⟨0, 0, 0⟩

/-- Constructor of `Vector2D` as registered on line 98, defaults `0.0f`. -/
def Vector2D.init (x y : Option F) : Vector2D F :=
  ⟨x.getD 0, y.getD 0⟩

/-- Constructor of `Vector3D` as registered on line 120, defaults `0.0f`. -/
def Vector3D.init (x y z : Option F) : Vector3D F :=
  ⟨x.getD 0, y.getD 0, z.getD 0⟩

/-- Constructor of `Location` as registered on line 141, defaults `0.0f`. -/
def Location.init (x y z : Option F) : Location F :=
  ⟨⟨x.getD 0, y.getD 0, z.getD 0⟩⟩

/-- Constructor of `Rotation` as registered on line 153, defaults `0.0f`. -/
def Rotation.init (pitch yaw roll : Option F) : Rotation F :=
  ⟨pitch.getD 0, yaw.getD 0, roll.getD 0⟩

/-- Constructor of `Transform` as registered on lines 164 and 165, defaults
`cg::Location()` and `cg::Rotation()`. -/
def Transform.init (location : Option (Location F)) (rotation : Option (Rotation F)) :
    Transform F :=
  ⟨location.getD Location.default, rotation.getD Rotation.default⟩

/-- Constructor of `BoundingBox` as registered on lines 185 and 186, defaults
`cg::Location()` and `cg::Vector3D()`. -/
def BoundingBox.init (location : Option (Location F)) (extent : Option (Vector3D F)) :
    BoundingBox F :=
  ⟨location.getD Location.default, extent.getD Vector3D.default⟩

/-- Constructor of `GeoLocation` as registered on line 198, defaults `0.0`. -/
def GeoLocation.init (latitude longitude altitude : Option F) : GeoLocation F :=
  ⟨latitude.getD 0, longitude.getD 0, altitude.getD 0⟩

end Constructors

/-! ## Python objects, storage and the point transform (lines 82 to 87, 168 to 172)

A Python list holds references to objects. `extract<Vector3D &>` gives a C++
reference to the point that an object holds or refers to, and `TransformPoint`
writes through it, so the effect is on the memory that holds the points. The
transform `self` is a `const` reference too: its location is a point in the
same memory, which a list element may refer to. -/

section PointTransform

variable {F : Type}

/-- A Python object as far as `extract<carla::geom::Vector3D &>` tells objects
apart: an instance of `Vector3D` or of its registered subclass `Location`,
with the memory cell of the C++ point that it holds or refers to, or any
other object. Objects with the same cell share their point: one Python
object listed twice, or two results of `t.location`, which `def_readwrite`
(line 166) binds as a reference into the transform `t`. -/
inductive PyObject where
  | vector3D (cell : Nat)
  | location (cell : Nat)
  | other (tag : Nat)
  deriving DecidableEq, Repr

/-- The memory: the point stored in every cell. A `Location` adds no field to
its `Vector3D` base, so its cell holds all of it. -/
abbrev Memory (F : Type) := Nat → Vector3D F

/-- Conversion `boost::python::extract<carla::geom::Vector3D &>`: the cell of
the `Vector3D` of the object (the base part of a `Location`), none when the
object has no `Vector3D`, in which case the conversion raises. -/
def extractVector3D : PyObject → Option Nat
  | .vector3D cell => some cell
  | .location cell => some cell
  | .other _ => none

/-- The memory after assigning `v` through the reference to `cell`. -/
def Memory.assign (memory : Memory F) (cell : Nat) (v : Vector3D F) : Memory F :=
  Function.update memory cell v

/-- The transform behind `const Transform &self`: its `location` member is the
point in the cell `location`; its `rotation` member is not a `Vector3D`, no
`Vector3D &` reaches it, and it is held as a value. -/
structure TransformRef (F : Type) where
  location : Nat
  rotation : Rotation F

/-- The transform as it is in the given memory. -/
def TransformRef.get (self : TransformRef F) (memory : Memory F) : Transform F :=
  ⟨⟨memory self.location⟩, self.rotation⟩

/-- How a call ends: it returns, it raises a Python exception, or the fuel
of the model is used up before either. The state is the one reached. -/
inductive Outcome (σ : Type) where
  | returned (s : σ)
  | raised (s : σ)
  | outOfFuel

/-- State of a run of `TransformList`: the memory, the objects that the list
argument refers to, in list order, and the indices at which `TransformPoint`
has been called so far, oldest first. -/
structure ListRun (F : Type) where
  memory : Memory F
  list : List PyObject
  calls : List Nat

/-- The `for` loop of `TransformList` (lines 84 to 86). The counter `i` is
an `unsigned int` (`auto i = 0u`), so `++i` is taken modulo `2^32`; `length`
is the signed 64 bit result of `boost::python::len`, never negative, and the
comparison `i < length` is made at 64 bits, where both operands keep their
value. `TransformPoint` is `Transform::TransformPoint` of
carla/geom/Transform.h: given the transform and the point as they are when
it is called, it yields the point that it stores in its argument. Every call
reads the transform from the memory as it then is. -/
def TransformList.loop (TransformPoint : Transform F → Vector3D F → Vector3D F)
    (self : TransformRef F) (length : Nat) : Nat → Nat → ListRun F → Outcome (ListRun F)
  | 0, _, _ => .outOfFuel
  | fuel + 1, i, s =>
    if i < length then
      match s.list[i]? with
      | none => .raised s
      | some o =>
        match extractVector3D o with
        | none => .raised s
        | some cell =>
          TransformList.loop TransformPoint self length fuel ((i + 1) % 2 ^ 32)
            ⟨s.memory.assign cell (TransformPoint (self.get s.memory) (s.memory cell)),
              s.list, s.calls ++ [i]⟩
    else .returned s

/-- Function `TransformList` (lines 82 to 87): the length is read once, then
the loop runs from index `0`. -/
def TransformList (TransformPoint : Transform F → Vector3D F → Vector3D F)
    (fuel : Nat) (self : TransformRef F) (memory : Memory F) (list : List PyObject) :
    Outcome (ListRun F) :=
  let length := list.length
  TransformList.loop TransformPoint self length fuel 0 ⟨memory, list, []⟩

/-- How a call of the single point overload ends: it returns a value, or the
conversion of its argument raises. -/
inductive PointResult (F : Type) where
  | returned (memory : Memory F) (value : Vector3D F)
  | raised (memory : Memory F)

/-- The single point overload of `Transform.transform` (lines 169 to 172):
the argument is converted to the reference `location` of type `Vector3D &`,
`TransformPoint` overwrites the point behind that reference, which is the
point of the object of the caller, and `return location` copies the point as
it is after that call. -/
def transform_in_point (TransformPoint : Transform F → Vector3D F → Vector3D F)
    (self : TransformRef F) (memory : Memory F) (in_point : PyObject) : PointResult F :=
  match extractVector3D in_point with
  | none => .raised memory
  | some cell =>
    let location := TransformPoint (self.get memory) (memory cell)
    .returned (memory.assign cell location) location

/-- Modelled from the spec: `Transform::TransformPoint` of
carla/geom/Transform.h, not under src/, which rotates the point and then
translates it by the location of the transform; here for a transform whose
rotation is zero, where the rotation leaves the point as it is. The integer
components stand for the floats of the same value. -/
def translatePoint (self : Transform Int) (p : Vector3D Int) : Vector3D Int :=
  ⟨p.x + self.location.x, p.y + self.location.y, p.z + self.location.z⟩

/-- The object is an instance of `Vector3D` or of `Location`. -/
def IsVector3D (o : PyObject) : Prop := (extractVector3D o).isSome = true

instance (o : PyObject) : Decidable (IsVector3D o) := by
  unfold IsVector3D; infer_instance

/-- The cells of the points that the objects of a list refer to, in list
order; objects that are not vectors have none. -/
def cellsOf (list : List PyObject) : List Nat := list.filterMap extractVector3D

/-- One call `self.TransformPoint(extract<Vector3D &>(..))` on the object
`o`, when that object has a `Vector3D`. -/
def transformAt (TransformPoint : Transform F → Vector3D F → Vector3D F)
    (self : TransformRef F) (memory : Memory F) (o : PyObject) : Memory F :=
  match extractVector3D o with
  | none => memory
  | some cell => memory.assign cell (TransformPoint (self.get memory) (memory cell))

end PointTransform

/-! ## Concrete inputs -/

/-- A memory whose cell `0` holds `(1, 0, 0)`, cell `2` holds `(0, 5, 0)`,
cell `7` holds `(1, 0, 0)` and every other cell holds `(0, 0, 0)`. -/
def sampleMemory : Memory Int := fun cell =>
  if cell = 0 then ⟨1, 0, 0⟩
  else if cell = 2 then ⟨0, 5, 0⟩
  else if cell = 7 then ⟨1, 0, 0⟩
  else ⟨0, 0, 0⟩

/-- A transform `t` with zero rotation whose location is the point in cell
`7`: in `sampleMemory` the translation by `(1, 0, 0)`. -/
def shiftX : TransformRef Int := ⟨7, ⟨0, 0, 0⟩⟩

/-- The `Vector3D` object `p` whose point is in cell `0`. -/
def objP : PyObject := .vector3D 0

/-- An object `q` that is not a vector. -/
def objQ : PyObject := .other 0

/-- The `Location` object `r` whose point is in cell `2`. -/
def objR : PyObject := .location 2

/-- The object `t.location`: a `Location` that refers to the location of the
transform `shiftX`, in cell `7`. -/
def objTLocation : PyObject := .location 7

/-! ## Theorems: string representations -/

/-- C3: the string of a `Vector2D` is `Vector2D(x=` fmt(x) `, y=` fmt(y) `)`
for the component rendering `fmt`, and with `std::to_string` the vector
`Vector2D(x=1, y=2)` reads `Vector2D(x=1.000000, y=2.000000)`. -/
theorem str_Vector2D_format {F : Type} (fmt : F → String) (v : Vector2D F) :
    Vector2D.str fmt v = "Vector2D(x=" ++ fmt v.x ++ ", y=" ++ fmt v.y ++ ")"
    ∧ Vector2D.str to_string ⟨float_1, float_2⟩ = "Vector2D(x=1.000000, y=2.000000)" := by
  refine ⟨?_, by decide⟩
  simp [Vector2D.str, Vector2D.operatorShl, WriteVector2D, String.append_assoc]

/-- C5: the string of a `BoundingBox` is `BoundingBox(` followed by the
string of its centre, `, Extent(x=` fmt(x) `, y=` fmt(y) `, z=` fmt(z) `))`,
the centre being written as `Location(x=` .. `, y=` .. `, z=` .. `)`; the
extent carries the label `Extent`. -/
theorem str_BoundingBox_format {F : Type} (fmt : F → String) (b : BoundingBox F) :
    BoundingBox.str fmt b
      = "BoundingBox(" ++ Location.str fmt b.location
          ++ ", Extent(x=" ++ fmt b.extent.x ++ ", y=" ++ fmt b.extent.y
          ++ ", z=" ++ fmt b.extent.z ++ "))"
    ∧ Location.str fmt b.location
      = "Location(x=" ++ fmt b.location.x ++ ", y=" ++ fmt b.location.y
          ++ ", z=" ++ fmt b.location.z ++ ")" := by
  constructor
  · simp [BoundingBox.str, BoundingBox.operatorShl, Location.str, Location.operatorShl,
      WriteVector3D, String.append_assoc]
    rfl
  · simp [Location.str, Location.operatorShl, WriteVector3D, String.append_assoc]

/-! ## Theorems: `std::to_string` -/

/-- C4 counterexample: the `float` nearest to `0.0000001` and the `float`
`0.0` are different values of the same type with the same text `0.000000`. -/
theorem to_string_collision_counterexample :
    float_1em7.IsBinary32 ∧ float_0.IsBinary32 ∧ float_1em7 ≠ float_0
      ∧ to_string float_1em7 = "0.000000" ∧ to_string float_0 = "0.000000"
      ∧ to_string float_1em7 = to_string float_0 := by
  decide

/-- A decimal digit character has the value of its digit and is not a minus. -/
theorem digitVal_digitChar : ∀ k, k < 10 → digitVal (Nat.digitChar k) = k ∧ Nat.digitChar k ≠ '-' := by
  decide

/-- The digit loop of `Nat.repr` writes a nonempty run of digits, without a
minus, that denotes the number. -/
theorem toDigitsCore_spec : ∀ (fuel n : Nat) (ds : List Char), n < fuel →
    ∃ L, Nat.toDigitsCore 10 fuel n ds = L ++ ds ∧ L ≠ []
      ∧ (∀ c ∈ L, c ≠ '-') ∧ decodeDigits L = n := by
  intro fuel
  induction fuel with
  | zero => intro n ds h; omega
  | succ fuel ih =>
    intro n ds h
    have hd := digitVal_digitChar (n % 10) (Nat.mod_lt _ (by norm_num))
    by_cases h0 : n / 10 = 0
    · refine ⟨[Nat.digitChar (n % 10)], ?_, by simp, ?_, ?_⟩
      · simp [Nat.toDigitsCore, h0]
      · intro c hc
        rw [List.mem_singleton] at hc
        exact hc ▸ hd.2
      · simp only [decodeDigits, List.foldl_cons, List.foldl_nil, hd.1]
        omega
    · obtain ⟨L, hL, _, hc, hv⟩ := ih (n / 10) (Nat.digitChar (n % 10) :: ds) (by omega)
      refine ⟨L ++ [Nat.digitChar (n % 10)], ?_, by simp, ?_, ?_⟩
      · simp [Nat.toDigitsCore, h0, hL]
      · intro c hm
        rcases List.mem_append.mp hm with m | m
        · exact hc c m
        · rw [List.mem_singleton] at m
          exact m ▸ hd.2
      · unfold decodeDigits at hv ⊢
        rw [List.foldl_append, hv]
        simp only [List.foldl_cons, List.foldl_nil, hd.1]
        omega

/-- The decimal text of a natural number is nonempty, has no minus, and
denotes the number. -/
theorem repr_spec (n : Nat) :
    (Nat.repr n).data ≠ [] ∧ (∀ c ∈ (Nat.repr n).data, c ≠ '-')
      ∧ decodeDigits (Nat.repr n).data = n := by
  obtain ⟨L, hL, hne, hc, hv⟩ := toDigitsCore_spec (n + 1) n [] (by omega)
  have : (Nat.repr n).data = L := by
    simp [Nat.repr, Nat.toDigits, hL, List.asString]
  rw [this]
  exact ⟨hne, hc, hv⟩

theorem repr_injective (a b : Nat) (h : Nat.repr a = Nat.repr b) : a = b := by
  rw [← (repr_spec a).2.2, ← (repr_spec b).2.2, h]

theorem digitChar_inj (a b : Nat) (ha : a < 10) (hb : b < 10)
    (h : Nat.digitChar a = Nat.digitChar b) : a = b := by
  rw [← (digitVal_digitChar a ha).1, ← (digitVal_digitChar b hb).1, h]

theorem fracDigits_injective (f g : Nat) (hf : f < 10 ^ 6) (hg : g < 10 ^ 6)
    (h : fracDigits f = fracDigits g) : f = g := by
  simp only [fracDigits, List.cons.injEq, and_true] at h
  obtain ⟨h5, h4, h3, h2, h1, h0⟩ := h
  have e5 := digitChar_inj _ _ (Nat.mod_lt _ (by norm_num)) (Nat.mod_lt _ (by norm_num)) h5
  have e4 := digitChar_inj _ _ (Nat.mod_lt _ (by norm_num)) (Nat.mod_lt _ (by norm_num)) h4
  have e3 := digitChar_inj _ _ (Nat.mod_lt _ (by norm_num)) (Nat.mod_lt _ (by norm_num)) h3
  have e2 := digitChar_inj _ _ (Nat.mod_lt _ (by norm_num)) (Nat.mod_lt _ (by norm_num)) h2
  have e1 := digitChar_inj _ _ (Nat.mod_lt _ (by norm_num)) (Nat.mod_lt _ (by norm_num)) h1
  have e0 := digitChar_inj _ _ (Nat.mod_lt _ (by norm_num)) (Nat.mod_lt _ (by norm_num)) h0
  norm_num at hf hg
  omega

/-- C4, as amended: `std::to_string` prints with a fixed precision of six
fractional digits. Two finite values have the same text exactly when they
have the same sign and their magnitudes round to the same multiple of
`10^-6`; so values that differ after that rounding have different texts. -/
theorem to_string_finite_eq_iff (n1 : Bool) (m1 : Nat) (e1 : Int) (n2 : Bool) (m2 : Nat)
    (e2 : Int) :
    to_string (.finite n1 m1 e1) = to_string (.finite n2 m2 e2)
      ↔ n1 = n2 ∧ scaled6 m1 e1 = scaled6 m2 e2 := by
  constructor
  · intro h
    have hd := congrArg String.data h
    simp only [to_string, String.data_append] at hd
    have hlen : (fracDigits (scaled6 m1 e1 % 10 ^ 6)).length
        = (fracDigits (scaled6 m2 e2 % 10 ^ 6)).length := rfl
    obtain ⟨h1, hfrac⟩ := List.append_inj' hd hlen
    have hdot : (".").data.length = (".").data.length := rfl
    obtain ⟨h2, _⟩ := List.append_inj' h1 hdot
    have hf := fracDigits_injective _ _ (Nat.mod_lt _ (by norm_num)) (Nat.mod_lt _ (by norm_num))
      hfrac
    have s1 := repr_spec (scaled6 m1 e1 / 10 ^ 6)
    have s2 := repr_spec (scaled6 m2 e2 / 10 ^ 6)
    have key : n1 = n2 ∧ Nat.repr (scaled6 m1 e1 / 10 ^ 6) = Nat.repr (scaled6 m2 e2 / 10 ^ 6) := by
      cases n1 <;> cases n2
      · simp only [signText] at h2
        exact ⟨rfl, String.ext (by simpa using h2)⟩
      · exfalso
        simp only [signText] at h2
        have h3 : (Nat.repr (scaled6 m1 e1 / 10 ^ 6)).data
            = '-' :: (Nat.repr (scaled6 m2 e2 / 10 ^ 6)).data := by simpa using h2
        exact s1.2.1 '-' (by rw [h3]; exact List.mem_cons_self _ _) rfl
      · exfalso
        simp only [signText] at h2
        have h3 : '-' :: (Nat.repr (scaled6 m1 e1 / 10 ^ 6)).data
            = (Nat.repr (scaled6 m2 e2 / 10 ^ 6)).data := by simpa using h2
        exact s2.2.1 '-' (by rw [← h3]; exact List.mem_cons_self _ _) rfl
      · simp only [signText] at h2
        exact ⟨rfl, String.ext (by simpa using h2)⟩
    refine ⟨key.1, ?_⟩
    have hq := repr_injective _ _ key.2
    have d1 := Nat.div_add_mod (scaled6 m1 e1) (10 ^ 6)
    have d2 := Nat.div_add_mod (scaled6 m2 e2) (10 ^ 6)
    rw [← d1, ← d2, hq, hf]
  · rintro ⟨rfl, h⟩
    simp [to_string, h]

/-! ## Lemmas on the memory and the loop -/

section LoopLemmas

variable {F : Type}

theorem Memory.assign_same (memory : Memory F) (cell : Nat) (v : Vector3D F) :
    memory.assign cell v cell = v := by
  simp [Memory.assign]

theorem Memory.assign_of_ne (memory : Memory F) (cell b : Nat) (v : Vector3D F)
    (h : b ≠ cell) : memory.assign cell v b = memory b := by
  simp [Memory.assign, Function.update, h]

theorem cellsOf_cons_some (o : PyObject) (rest : List PyObject) (cell : Nat)
    (h : extractVector3D o = some cell) : cellsOf (o :: rest) = cell :: cellsOf rest := by
  simp [cellsOf, List.filterMap_cons, h]

theorem cellsOf_cons_none (o : PyObject) (rest : List PyObject)
    (h : extractVector3D o = none) : cellsOf (o :: rest) = cellsOf rest := by
  simp [cellsOf, List.filterMap_cons, h]

theorem cellsOf_append (l1 l2 : List PyObject) :
    cellsOf (l1 ++ l2) = cellsOf l1 ++ cellsOf l2 := by
  simp [cellsOf]

theorem mem_cellsOf (list : List PyObject) (o : PyObject) (cell : Nat) (ho : o ∈ list)
    (h : extractVector3D o = some cell) : cell ∈ cellsOf list := by
  unfold cellsOf
  exact List.mem_filterMap.mpr ⟨o, ho, h⟩

theorem transformAt_some (tp : Transform F → Vector3D F → Vector3D F)
    (self : TransformRef F) (memory : Memory F) (o : PyObject) (cell : Nat)
    (h : extractVector3D o = some cell) :
    transformAt tp self memory o
      = memory.assign cell (tp (self.get memory) (memory cell)) := by
  simp [transformAt, h]

theorem transformAt_none (tp : Transform F → Vector3D F → Vector3D F)
    (self : TransformRef F) (memory : Memory F) (o : PyObject)
    (h : extractVector3D o = none) : transformAt tp self memory o = memory := by
  simp [transformAt, h]

/-- A point that the list does not refer to is left as it was. -/
theorem foldl_transformAt_of_not_mem (tp : Transform F → Vector3D F → Vector3D F)
    (self : TransformRef F) (list : List PyObject) (memory : Memory F) (c : Nat)
    (h : c ∉ cellsOf list) :
    list.foldl (transformAt tp self) memory c = memory c := by
  induction list generalizing memory with
  | nil => rfl
  | cons o rest ih =>
    rw [List.foldl_cons]
    cases he : extractVector3D o with
    | none =>
      rw [cellsOf_cons_none o rest he] at h
      rw [transformAt_none tp self memory o he]
      exact ih memory h
    | some cell =>
      rw [cellsOf_cons_some o rest cell he] at h
      have hne : c ≠ cell := fun e => h (e ▸ List.mem_cons_self _ _)
      have hnot : c ∉ cellsOf rest := fun m => h (List.mem_cons_of_mem _ m)
      rw [ih _ hnot, transformAt_some tp self memory o cell he,
        Memory.assign_of_ne memory cell c _ hne]

/-- When the list refers to pairwise distinct points and not to the location
of the transform, every point it refers to ends as `TransformPoint` of the
transform and the point as they were at the start. -/
theorem foldl_transformAt_distinct (tp : Transform F → Vector3D F → Vector3D F)
    (self : TransformRef F) (list : List PyObject) (memory : Memory F)
    (hnd : (cellsOf list).Nodup) (hself : self.location ∉ cellsOf list) :
    ∀ c ∈ cellsOf list,
      list.foldl (transformAt tp self) memory c = tp (self.get memory) (memory c) := by
  induction list generalizing memory with
  | nil => intro c hc; cases hc
  | cons o rest ih =>
    intro c hc
    rw [List.foldl_cons]
    cases he : extractVector3D o with
    | none =>
      rw [cellsOf_cons_none o rest he] at hnd hself hc
      rw [transformAt_none tp self memory o he]
      exact ih memory hnd hself c hc
    | some cell =>
      rw [cellsOf_cons_some o rest cell he] at hnd hself hc
      have hcell : cell ∉ cellsOf rest := (List.nodup_cons.mp hnd).1
      have hrest : (cellsOf rest).Nodup := (List.nodup_cons.mp hnd).2
      have hsl : self.location ≠ cell := fun e => hself (e ▸ List.mem_cons_self _ _)
      have hsr : self.location ∉ cellsOf rest := fun m => hself (List.mem_cons_of_mem _ m)
      rw [transformAt_some tp self memory o cell he]
      have hget : self.get (memory.assign cell (tp (self.get memory) (memory cell)))
          = self.get memory := by
        simp [TransformRef.get, Memory.assign_of_ne memory cell self.location _ hsl]
      rcases List.mem_cons.mp hc with e | m
      · subst e
        rw [foldl_transformAt_of_not_mem tp self rest _ c hcell, Memory.assign_same]
      · have hne : c ≠ cell := fun e => hcell (e ▸ m)
        rw [ih _ hrest hsr c m, hget, Memory.assign_of_ne memory cell c _ hne]

/-- The loop, started at the index `pre.length` with enough fuel, works
through a stretch `mid` of vectors that ends below `2^32`. -/
theorem loop_stretch (tp : Transform F → Vector3D F → Vector3D F) (self : TransformRef F)
    (post : List PyObject) :
    ∀ (mid pre : List PyObject) (memory : Memory F) (calls : List Nat) (fuel : Nat),
      pre.length + mid.length < 2 ^ 32 →
      (∀ o ∈ mid, IsVector3D o) →
      TransformList.loop tp self (pre ++ (mid ++ post)).length (fuel + mid.length) pre.length
          ⟨memory, pre ++ (mid ++ post), calls⟩
        = TransformList.loop tp self (pre ++ (mid ++ post)).length fuel
            (pre.length + mid.length)
            ⟨mid.foldl (transformAt tp self) memory, pre ++ (mid ++ post),
              calls ++ List.range' pre.length mid.length⟩ := by
  intro mid
  induction mid with
  | nil => intro pre memory calls fuel _ _; simp
  | cons o mid ih =>
    intro pre memory calls fuel hlen hvec
    have ho : IsVector3D o := hvec o (List.mem_cons_self _ _)
    obtain ⟨cell, hcell⟩ := Option.isSome_iff_exists.mp ho
    have hlen1 : pre.length + (mid.length + 1) < 2 ^ 32 := by simpa using hlen
    have hi : pre.length < (pre ++ (o :: mid ++ post)).length := by
      simp only [List.length_append, List.length_cons]; omega
    have hget : (pre ++ (o :: mid ++ post))[pre.length]? = some o := by
      rw [List.getElem?_append_right (le_refl _)]; simp
    have hmod : (pre.length + 1) % 2 ^ 32 = pre.length + 1 := Nat.mod_eq_of_lt (by omega)
    have hfuel : fuel + (o :: mid).length = (fuel + mid.length) + 1 := by
      simp only [List.length_cons]; omega
    have hvec1 : ∀ b ∈ mid, IsVector3D b := fun b hb => hvec b (List.mem_cons_of_mem _ hb)
    have step := ih (pre ++ [o]) (memory.assign cell (tp (self.get memory) (memory cell)))
      (calls ++ [pre.length]) fuel
      (by simp only [List.length_append, List.length_singleton]; omega) hvec1
    have hlist : pre ++ [o] ++ (mid ++ post) = pre ++ (o :: mid ++ post) := by simp
    have hta := transformAt_some tp self memory o cell hcell
    rw [hlist] at step
    rw [hfuel, TransformList.loop]
    simp only [hi, if_true, hget, hcell, hmod]
    have hpl : (pre ++ [o]).length = pre.length + 1 := by simp
    rw [hpl] at step
    rw [step, List.foldl_cons, hta]
    simp [List.range'_succ, Nat.add_assoc, Nat.add_comm 1]

/-- With fewer than `2^32` objects, all of them vectors, and enough fuel, the
call returns after one `TransformPoint` per index, in index order. -/
theorem TransformList_returned (tp : Transform F → Vector3D F → Vector3D F)
    (self : TransformRef F) (memory : Memory F) (list : List PyObject) (fuel : Nat)
    (hlen : list.length < 2 ^ 32) (hfuel : list.length < fuel)
    (hvec : ∀ o ∈ list, IsVector3D o) :
    TransformList tp fuel self memory list
      = .returned ⟨list.foldl (transformAt tp self) memory, list,
          List.range list.length⟩ := by
  obtain ⟨k, rfl⟩ : ∃ k, fuel = (k + 1) + list.length := ⟨fuel - list.length - 1, by omega⟩
  have h := loop_stretch tp self [] list [] memory [] (k + 1) (by simpa using hlen) hvec
  simp only [List.append_nil, List.nil_append, List.length_nil, Nat.zero_add] at h
  unfold TransformList
  rw [h, TransformList.loop]
  simp [List.range_eq_range']

/-- With fuel equal to the number of objects the loop has not ended yet. -/
theorem TransformList_outOfFuel_at_length (tp : Transform F → Vector3D F → Vector3D F)
    (self : TransformRef F) (memory : Memory F) (list : List PyObject)
    (hlen : list.length < 2 ^ 32) (hvec : ∀ o ∈ list, IsVector3D o) :
    TransformList tp list.length self memory list = .outOfFuel := by
  have h := loop_stretch tp self [] list [] memory [] 0 (by simpa using hlen) hvec
  simp only [List.append_nil, List.nil_append, List.length_nil, Nat.zero_add] at h
  unfold TransformList
  rw [h]
  rfl

/-- When the first object that is not a vector sits at an index below
`2^32`, the call raises there, after one `TransformPoint` per earlier index. -/
theorem TransformList_raised (tp : Transform F → Vector3D F → Vector3D F)
    (self : TransformRef F) (memory : Memory F) (pre : List PyObject) (b : PyObject)
    (post : List PyObject) (fuel : Nat) (hlen : pre.length < 2 ^ 32)
    (hfuel : pre.length < fuel) (hvec : ∀ o ∈ pre, IsVector3D o) (hb : ¬ IsVector3D b) :
    TransformList tp fuel self memory (pre ++ b :: post)
      = .raised ⟨pre.foldl (transformAt tp self) memory, pre ++ b :: post,
          List.range pre.length⟩ := by
  obtain ⟨k, rfl⟩ : ∃ k, fuel = (k + 1) + pre.length := ⟨fuel - pre.length - 1, by omega⟩
  have h := loop_stretch tp self (b :: post) pre [] memory [] (k + 1) (by simpa using hlen) hvec
  simp only [List.nil_append, List.length_nil, Nat.zero_add] at h
  have hb1 : extractVector3D b = none := by simpa [IsVector3D] using hb
  have hi : pre.length < (pre ++ b :: post).length := by
    simp only [List.length_append, List.length_cons]; omega
  have hget : (pre ++ b :: post)[pre.length]? = some b := by
    rw [List.getElem?_append_right (le_refl _)]; simp
  unfold TransformList
  rw [h, TransformList.loop]
  simp only [hi, if_true, hget, hb1, List.range_eq_range']

/-- With `2^32` objects or more, all of them vectors, the counter wraps to
`0` before it reaches the length: no amount of fuel lets the loop end. -/
theorem loop_outOfFuel (tp : Transform F → Vector3D F → Vector3D F) (self : TransformRef F)
    (length : Nat) (hbig : 2 ^ 32 ≤ length) :
    ∀ (fuel i : Nat) (s : ListRun F), length ≤ s.list.length →
      (∀ o ∈ s.list, IsVector3D o) → i < 2 ^ 32 →
      TransformList.loop tp self length fuel i s = .outOfFuel := by
  intro fuel
  induction fuel with
  | zero => intro i s _ _ _; rfl
  | succ fuel ih =>
    intro i s hlen hvec hi
    have hil : i < length := by omega
    have his : i < s.list.length := by omega
    have hget : s.list[i]? = some s.list[i] := List.getElem?_eq_getElem his
    have hv : IsVector3D s.list[i] := hvec _ (List.getElem_mem his)
    obtain ⟨cell, hcell⟩ := Option.isSome_iff_exists.mp hv
    rw [TransformList.loop]
    simp only [hil, if_true, hget, hcell]
    apply ih
    · exact hlen
    · exact hvec
    · exact Nat.mod_lt _ (by norm_num)

end LoopLemmas

/-! ## Theorems: constructors -/

/-- C7: every registered constructor called without arguments yields zero in
every numeric field, and an argument that is given leaves the omitted fields
at zero (`Transform` and `BoundingBox` through their default `Location`,
`Rotation` and `Vector3D`). -/
theorem constructor_defaults_zero (F : Type) [Zero F] :
    (Vector2D.init none none = (⟨0, 0⟩ : Vector2D F)
      ∧ ∀ x : F, Vector2D.init (some x) none = ⟨x, 0⟩)
    ∧ (Vector3D.init none none none = (⟨0, 0, 0⟩ : Vector3D F)
      ∧ (∀ x : F, Vector3D.init (some x) none none = ⟨x, 0, 0⟩)
      ∧ ∀ x y : F, Vector3D.init (some x) (some y) none = ⟨x, y, 0⟩)
    ∧ (Location.init none none none = (⟨⟨0, 0, 0⟩⟩ : Location F)
      ∧ (∀ x : F, Location.init (some x) none none = ⟨⟨x, 0, 0⟩⟩)
      ∧ ∀ x y : F, Location.init (some x) (some y) none = ⟨⟨x, y, 0⟩⟩)
    ∧ (Rotation.init none none none = (⟨0, 0, 0⟩ : Rotation F)
      ∧ (∀ pitch : F, Rotation.init (some pitch) none none = ⟨pitch, 0, 0⟩)
      ∧ ∀ pitch yaw : F, Rotation.init (some pitch) (some yaw) none = ⟨pitch, yaw, 0⟩)
    ∧ (GeoLocation.init none none none = (⟨0, 0, 0⟩ : GeoLocation F)
      ∧ (∀ latitude : F, GeoLocation.init (some latitude) none none = ⟨latitude, 0, 0⟩)
      ∧ ∀ latitude longitude : F,
          GeoLocation.init (some latitude) (some longitude) none = ⟨latitude, longitude, 0⟩)
    ∧ (Transform.init none none = (⟨⟨⟨0, 0, 0⟩⟩, ⟨0, 0, 0⟩⟩ : Transform F)
      ∧ ∀ location : Location F, Transform.init (some location) none = ⟨location, ⟨0, 0, 0⟩⟩)
    ∧ (BoundingBox.init none none = (⟨⟨⟨0, 0, 0⟩⟩, ⟨0, 0, 0⟩⟩ : BoundingBox F)
      ∧ ∀ location : Location F,
          BoundingBox.init (some location) none = ⟨location, ⟨0, 0, 0⟩⟩) := by
  simp [Vector2D.init, Vector3D.init, Location.init, Rotation.init, GeoLocation.init,
    Transform.init, BoundingBox.init, Location.default, Rotation.default, Vector3D.default]

/-! ## Theorems: the point transform -/

section PointTransformTheorems

variable {F : Type}

/-- C1, as amended: for a list of fewer than `2^32` vector objects whose
points are pairwise distinct and none of which is the location of the
transform `t`, the call returns, the list holds the same objects in the same
order, `TransformPoint` has been called at the indices `0, 1, .., n-1` in that
order, the point at every index `i` is `TransformPoint(t, old point at i)`,
and no other point has changed, the location of `t` included. -/
theorem TransformList_distinct_points (tp : Transform F → Vector3D F → Vector3D F)
    (self : TransformRef F) (memory : Memory F) (list : List PyObject) (fuel : Nat)
    (hlen : list.length < 2 ^ 32) (hfuel : list.length < fuel)
    (hvec : ∀ o ∈ list, IsVector3D o) (hnodup : (cellsOf list).Nodup)
    (hself : self.location ∉ cellsOf list) :
    ∃ s, TransformList tp fuel self memory list = .returned s
      ∧ s.list = list
      ∧ s.calls = List.range list.length
      ∧ (∀ i (hi : i < list.length) cell, extractVector3D list[i] = some cell →
          s.memory cell = tp (self.get memory) (memory cell))
      ∧ (∀ c, c ∉ cellsOf list → s.memory c = memory c)
      ∧ self.get s.memory = self.get memory := by
  refine ⟨_, TransformList_returned tp self memory list fuel hlen hfuel hvec, rfl, rfl,
    ?_, ?_, ?_⟩
  · intro i hi cell hcell
    exact foldl_transformAt_distinct tp self list memory hnodup hself cell
      (mem_cellsOf list _ cell (List.getElem_mem hi) hcell)
  · intro c hc
    exact foldl_transformAt_of_not_mem tp self list memory c hc
  · show self.get (list.foldl (transformAt tp self) memory) = self.get memory
    simp [TransformRef.get, foldl_transformAt_of_not_mem tp self list memory _ hself]

/-- C1 witness: a `Vector3D` and a `Location` with distinct points, neither
the location of the transform. -/
theorem TransformList_distinct_points_witness :
    [objP, objR].length < 2 ^ 32 ∧ [objP, objR].length < 3
      ∧ (∀ o ∈ [objP, objR], IsVector3D o) ∧ (cellsOf [objP, objR]).Nodup
      ∧ shiftX.location ∉ cellsOf [objP, objR]
      ∧ ∃ s, TransformList translatePoint 3 shiftX sampleMemory [objP, objR] = .returned s
        ∧ s.list = [objP, objR]
        ∧ s.calls = List.range [objP, objR].length
        ∧ (∀ i (hi : i < [objP, objR].length) cell,
            extractVector3D [objP, objR][i] = some cell →
            s.memory cell = translatePoint (shiftX.get sampleMemory) (sampleMemory cell))
        ∧ (∀ c, c ∉ cellsOf [objP, objR] → s.memory c = sampleMemory c)
        ∧ shiftX.get s.memory = shiftX.get sampleMemory :=
  ⟨by decide, by decide, by decide, by decide, by decide,
    TransformList_distinct_points translatePoint shiftX sampleMemory [objP, objR] 3
      (by decide) (by decide) (by decide) (by decide) (by decide)⟩

/-- C1 counterexample, on two lists of vectors, with `t` the translation by
`(1, 0, 0)` and `p = (1, 0, 0)`, so that `TransformPoint(t, old p)` is
`(2, 0, 0)`. On `[p, p]`, one object twice, the call returns with
`p = (3, 0, 0)`. On `[t.location, p]`, two distinct points, the call first
moves the location of `t` to `(2, 0, 0)` and then returns with
`p = (3, 0, 0)`. -/
theorem TransformList_aliased_counterexample :
    translatePoint (shiftX.get sampleMemory) (sampleMemory 0) = ⟨2, 0, 0⟩
    ∧ (∃ s, TransformList translatePoint 3 shiftX sampleMemory [objP, objP] = .returned s
      ∧ (∀ o ∈ [objP, objP], IsVector3D o)
      ∧ extractVector3D objP = some 0
      ∧ s.memory 0 = ⟨3, 0, 0⟩
      ∧ s.memory 0 ≠ translatePoint (shiftX.get sampleMemory) (sampleMemory 0))
    ∧ (∃ s, TransformList translatePoint 3 shiftX sampleMemory [objTLocation, objP]
          = .returned s
      ∧ (∀ o ∈ [objTLocation, objP], IsVector3D o)
      ∧ (cellsOf [objTLocation, objP]).Nodup
      ∧ extractVector3D objTLocation = some shiftX.location
      ∧ s.memory shiftX.location = ⟨2, 0, 0⟩
      ∧ s.memory 0 = ⟨3, 0, 0⟩
      ∧ s.memory 0 ≠ translatePoint (shiftX.get sampleMemory) (sampleMemory 0)) :=
  ⟨by decide,
    ⟨_, rfl, by decide, by decide, by decide, by decide⟩,
    ⟨_, rfl, by decide, by decide, by decide, by decide, by decide, by decide⟩⟩

/-- C2: for a point object `p` the single point overload returns
`TransformPoint(t, p)`, and that is the value which the batch overload,
called on the one element list `[p]`, leaves at index 0. -/
theorem transform_in_point_eq_batch (tp : Transform F → Vector3D F → Vector3D F)
    (self : TransformRef F) (memory : Memory F) (in_point : PyObject) (cell : Nat)
    (fuel : Nat) (hp : extractVector3D in_point = some cell) (hfuel : 1 < fuel) :
    ∃ memory1 value s, transform_in_point tp self memory in_point = .returned memory1 value
      ∧ value = tp (self.get memory) (memory cell)
      ∧ TransformList tp fuel self memory [in_point] = .returned s
      ∧ s.list = [in_point]
      ∧ s.memory cell = value := by
  have hv : ∀ o ∈ [in_point], IsVector3D o := by
    intro o ho
    rw [List.mem_singleton] at ho
    subst ho
    simp [IsVector3D, hp]
  refine ⟨memory.assign cell (tp (self.get memory) (memory cell)),
    tp (self.get memory) (memory cell), _, ?_, rfl,
    TransformList_returned tp self memory [in_point] fuel (by simp) hfuel hv, rfl, ?_⟩
  · simp [transform_in_point, hp]
  · show ([in_point] : List PyObject).foldl (transformAt tp self) memory cell = _
    rw [List.foldl_cons, List.foldl_nil, transformAt_some tp self memory in_point cell hp,
      Memory.assign_same]

/-- C2 witness: the `Vector3D` object `p` of the sample memory. -/
theorem transform_in_point_eq_batch_witness :
    extractVector3D objP = some 0 ∧ 1 < 2
      ∧ ∃ memory1 value s,
        transform_in_point translatePoint shiftX sampleMemory objP = .returned memory1 value
        ∧ value = translatePoint (shiftX.get sampleMemory) (sampleMemory 0)
        ∧ TransformList translatePoint 2 shiftX sampleMemory [objP] = .returned s
        ∧ s.list = [objP]
        ∧ s.memory 0 = value :=
  ⟨by decide, by decide,
    transform_in_point_eq_batch translatePoint shiftX sampleMemory objP 0 2
      (by decide) (by decide)⟩

/-- C8: the single point overload overwrites the point of the object of the
caller: after the call that point is `TransformPoint(t, p)`, the value
returned is equal to it, and no other point has changed. -/
theorem transform_in_point_overwrites_argument (tp : Transform F → Vector3D F → Vector3D F)
    (self : TransformRef F) (memory : Memory F) (in_point : PyObject) (cell : Nat)
    (hp : extractVector3D in_point = some cell) :
    ∃ memory1 value, transform_in_point tp self memory in_point = .returned memory1 value
      ∧ memory1 cell = tp (self.get memory) (memory cell)
      ∧ memory1 cell = value
      ∧ ∀ b, b ≠ cell → memory1 b = memory b := by
  have hx : memory.assign cell (tp (self.get memory) (memory cell)) cell
      = tp (self.get memory) (memory cell) := Memory.assign_same _ _ _
  refine ⟨memory.assign cell (tp (self.get memory) (memory cell)),
    tp (self.get memory) (memory cell), ?_, hx, hx, ?_⟩
  · simp [transform_in_point, hp]
  · intro b hb
    exact Memory.assign_of_ne memory cell b _ hb

/-- C8 witness: the `Location` object `r` of the sample memory. -/
theorem transform_in_point_overwrites_argument_witness :
    extractVector3D objR = some 2
      ∧ ∃ memory1 value,
        transform_in_point translatePoint shiftX sampleMemory objR = .returned memory1 value
        ∧ memory1 2 = translatePoint (shiftX.get sampleMemory) (sampleMemory 2)
        ∧ memory1 2 = value
        ∧ ∀ b, b ≠ 2 → memory1 b = sampleMemory b :=
  ⟨by decide,
    transform_in_point_overwrites_argument translatePoint shiftX sampleMemory objR 2
      (by decide)⟩

/-- C10: for a list of `n < 2^32` vector objects the loop with its counter
modulo `2^32` ends, whatever fuel above `n` it is given, after exactly `n`
calls of `TransformPoint`, made at the indices `0, 1, .., n-1` in that
order: the memory it leaves is the one that those `n` calls, each through
`extract<Vector3D &>` of the element at its index, produce one after the
other, and the list is as it was. The length it compares with is the one read
before the loop. With fuel `n` the loop has not ended yet: it makes `n`
passes and one last test. -/
theorem TransformList_terminates (tp : Transform F → Vector3D F → Vector3D F)
    (self : TransformRef F) (memory : Memory F) (list : List PyObject) (fuel : Nat)
    (hlen : list.length < 2 ^ 32) (hfuel : list.length < fuel)
    (hvec : ∀ o ∈ list, IsVector3D o) :
    (∃ s, TransformList tp fuel self memory list = .returned s
      ∧ s.memory = list.foldl
          (fun m o => match extractVector3D o with
            | none => m
            | some cell => m.assign cell (tp (self.get m) (m cell))) memory
      ∧ s.list = list
      ∧ s.calls = List.range list.length
      ∧ s.calls.length = list.length)
    ∧ TransformList tp list.length self memory list = .outOfFuel := by
  refine ⟨⟨_, TransformList_returned tp self memory list fuel hlen hfuel hvec, rfl, rfl, rfl,
    List.length_range _⟩, TransformList_outOfFuel_at_length tp self memory list hlen hvec⟩

/-- C10 witness: three objects, one of them listed twice. -/
theorem TransformList_terminates_witness :
    [objP, objR, objP].length < 2 ^ 32 ∧ [objP, objR, objP].length < 4
      ∧ (∀ o ∈ [objP, objR, objP], IsVector3D o)
      ∧ (∃ s, TransformList translatePoint 4 shiftX sampleMemory [objP, objR, objP]
            = .returned s
        ∧ s.memory = [objP, objR, objP].foldl
            (fun m o => match extractVector3D o with
              | none => m
              | some cell => m.assign cell (translatePoint (shiftX.get m) (m cell)))
            sampleMemory
        ∧ s.list = [objP, objR, objP]
        ∧ s.calls = List.range [objP, objR, objP].length
        ∧ s.calls.length = [objP, objR, objP].length)
      ∧ TransformList translatePoint [objP, objR, objP].length shiftX sampleMemory
          [objP, objR, objP] = .outOfFuel :=
  ⟨by decide, by decide, by decide,
    TransformList_terminates translatePoint shiftX sampleMemory [objP, objR, objP] 4
      (by decide) (by decide) (by decide)⟩

/-- Below `2^32` objects the call raises exactly when some object is not a
vector, and returns exactly when all are vectors. -/
theorem TransformList_raises_iff (tp : Transform F → Vector3D F → Vector3D F)
    (self : TransformRef F) (memory : Memory F) (list : List PyObject) (fuel : Nat)
    (hlen : list.length < 2 ^ 32) (hfuel : list.length < fuel) :
    ((∃ s, TransformList tp fuel self memory list = .raised s)
        ↔ ∃ o ∈ list, ¬ IsVector3D o)
    ∧ ((∃ s, TransformList tp fuel self memory list = .returned s)
        ↔ ∀ o ∈ list, IsVector3D o) := by
  by_cases hall : ∀ o ∈ list, IsVector3D o
  · have hr := TransformList_returned tp self memory list fuel hlen hfuel hall
    constructor
    · constructor
      · rintro ⟨s, hs⟩
        rw [hr] at hs
        cases hs
      · rintro ⟨o, ho, hno⟩
        exact absurd (hall o ho) hno
    · exact ⟨fun _ => hall, fun _ => ⟨_, hr⟩⟩
  · have hex : ∃ o ∈ list, ¬ IsVector3D o := by
      by_contra hne
      exact hall (fun o ho => by
        by_contra hno
        exact hne ⟨o, ho, hno⟩)
    have hsplit : ∃ pre b post, list = pre ++ b :: post
        ∧ (∀ o ∈ pre, IsVector3D o) ∧ ¬ IsVector3D b := by
      clear hlen hfuel hall
      induction list with
      | nil => obtain ⟨o, ho, _⟩ := hex; cases ho
      | cons c rest ih =>
        by_cases hc : IsVector3D c
        · obtain ⟨o, ho, hno⟩ := hex
          have hor : o ∈ rest := by
            rcases List.mem_cons.mp ho with e | m
            · exact absurd (e ▸ hc) hno
            · exact m
          obtain ⟨pre, b, post, e, hpre, hb⟩ := ih ⟨o, hor, hno⟩
          refine ⟨c :: pre, b, post, by rw [e]; rfl, ?_, hb⟩
          intro x hx
          rcases List.mem_cons.mp hx with e1 | m
          · exact e1 ▸ hc
          · exact hpre x m
        · exact ⟨[], c, rest, rfl, fun _ h => (by cases h), hc⟩
    obtain ⟨pre, b, post, e, hpre, hb⟩ := hsplit
    have hpl : pre.length ≤ list.length := by
      rw [e]; simp only [List.length_append]; omega
    have hr := TransformList_raised tp self memory pre b post fuel (by omega) (by omega) hpre hb
    rw [← e] at hr
    constructor
    · exact ⟨fun _ => hex, fun _ => ⟨_, hr⟩⟩
    · constructor
      · rintro ⟨s, hs⟩
        rw [hr] at hs
        cases hs
      · intro h
        exact absurd h hall

/-- C6, the failing input: a list that holds `2^32` references to one
`Vector3D` object. Every element is a vector, yet the call neither returns
nor raises, whatever the fuel: the `unsigned int` counter wraps to `0` at
`2^32` and stays below the length for ever. -/
theorem TransformList_wraps_at_two_pow_32 :
    (∀ o ∈ List.replicate (2 ^ 32) objP, IsVector3D o)
    ∧ ∀ fuel, TransformList translatePoint fuel shiftX sampleMemory
        (List.replicate (2 ^ 32) objP) = .outOfFuel := by
  have hv : ∀ o ∈ List.replicate (2 ^ 32) objP, IsVector3D o := by
    intro o ho
    rw [List.eq_of_mem_replicate ho]
    decide
  refine ⟨hv, fun fuel => ?_⟩
  unfold TransformList
  apply loop_outOfFuel
  · rw [List.length_replicate]
  · exact le_refl _
  · exact hv
  · norm_num

/-- C9, as amended: when the vector objects of the list have pairwise
distinct points, none of them the location of the transform `t`, and the
first object that is not a vector sits at an index `k < 2^32`, the call
raises; by then `TransformPoint` has been called at the indices `0, .., k-1`
in that order, the point at every index below `k` is
`TransformPoint(t, old point)`, the point at every index from `k` on is
unchanged, as is the location of `t`, and the list holds the same objects in
the same order. -/
theorem TransformList_raises_distinct (tp : Transform F → Vector3D F → Vector3D F)
    (self : TransformRef F) (memory : Memory F) (list : List PyObject) (k fuel : Nat)
    (hk : k < list.length) (hk32 : k < 2 ^ 32) (hfuel : k < fuel)
    (hpre : ∀ i (hi : i < list.length), i < k → IsVector3D list[i])
    (hbad : ¬ IsVector3D list[k]) (hnodup : (cellsOf list).Nodup)
    (hself : self.location ∉ cellsOf list) :
    ∃ s, TransformList tp fuel self memory list = .raised s
      ∧ s.list = list
      ∧ s.calls = List.range k
      ∧ (∀ i (hi : i < list.length) cell, i < k → extractVector3D list[i] = some cell →
          s.memory cell = tp (self.get memory) (memory cell))
      ∧ (∀ i (hi : i < list.length) cell, k ≤ i → extractVector3D list[i] = some cell →
          s.memory cell = memory cell)
      ∧ self.get s.memory = self.get memory := by
  have hsplit : list.take k ++ list[k] :: list.drop (k + 1) = list := by
    rw [← List.drop_eq_getElem_cons hk, List.take_append_drop]
  have hlenpre : (list.take k).length = k := by
    rw [List.length_take]; omega
  have hcells : cellsOf list = cellsOf (list.take k) ++ cellsOf (list.drop k) := by
    rw [← cellsOf_append, List.take_append_drop]
  rw [hcells] at hnodup hself
  have hnd : (cellsOf (list.take k)).Nodup := (List.nodup_append.mp hnodup).1
  have hdisj := (List.nodup_append.mp hnodup).2.2
  have hselfpre : self.location ∉ cellsOf (list.take k) := fun m =>
    hself (List.mem_append_left _ m)
  have hmem : ∀ o, o ∈ list.take k ↔ ∃ (i : Nat) (hi : i < list.length), i < k ∧ list[i] = o := by
    intro o
    rw [List.mem_take_iff_getElem]
    constructor
    · rintro ⟨i, hm, e⟩
      exact ⟨i, by omega, by omega, e⟩
    · rintro ⟨i, hi, hik, e⟩
      exact ⟨i, by omega, e⟩
  have hvecpre : ∀ o ∈ list.take k, IsVector3D o := by
    intro o ho
    obtain ⟨i, hi, hik, e⟩ := (hmem o).mp ho
    exact e ▸ hpre i hi hik
  have hr := TransformList_raised tp self memory (list.take k) list[k] (list.drop (k + 1)) fuel
    (by omega) (by omega) hvecpre hbad
  rw [hsplit, hlenpre] at hr
  refine ⟨_, hr, rfl, rfl, ?_, ?_, ?_⟩
  · intro i hi cell hik hcell
    have hm : list[i] ∈ list.take k := (hmem _).mpr ⟨i, hi, hik, rfl⟩
    exact foldl_transformAt_distinct tp self (list.take k) memory hnd hselfpre cell
      (mem_cellsOf _ _ cell hm hcell)
  · intro i hi cell hki hcell
    have hm : list[i] ∈ list.drop k := by
      rw [List.mem_drop_iff_getElem]
      exact ⟨i - k, by omega, by simp [Nat.add_sub_cancel' hki]⟩
    have hc : cell ∈ cellsOf (list.drop k) := mem_cellsOf _ _ cell hm hcell
    have hnm : cell ∉ cellsOf (list.take k) := fun m => hdisj m hc
    exact foldl_transformAt_of_not_mem tp self (list.take k) memory cell hnm
  · show self.get ((list.take k).foldl (transformAt tp self) memory) = self.get memory
    simp [TransformRef.get, foldl_transformAt_of_not_mem tp self (list.take k) memory _ hselfpre]

/-- C9 witness: a `Vector3D`, then an object that is not a vector, then a
`Location`, with distinct points, none the location of the transform. -/
theorem TransformList_raises_distinct_witness :
    1 < [objP, objQ, objR].length ∧ 1 < 2 ^ 32 ∧ 1 < 2
      ∧ (∀ i (hi : i < [objP, objQ, objR].length), i < 1 →
          IsVector3D [objP, objQ, objR][i])
      ∧ ¬ IsVector3D [objP, objQ, objR][1] ∧ (cellsOf [objP, objQ, objR]).Nodup
      ∧ shiftX.location ∉ cellsOf [objP, objQ, objR]
      ∧ ∃ s, TransformList translatePoint 2 shiftX sampleMemory [objP, objQ, objR] = .raised s
        ∧ s.list = [objP, objQ, objR]
        ∧ s.calls = List.range 1
        ∧ (∀ i (hi : i < [objP, objQ, objR].length) cell, i < 1 →
            extractVector3D [objP, objQ, objR][i] = some cell →
            s.memory cell = translatePoint (shiftX.get sampleMemory) (sampleMemory cell))
        ∧ (∀ i (hi : i < [objP, objQ, objR].length) cell, 1 ≤ i →
            extractVector3D [objP, objQ, objR][i] = some cell →
            s.memory cell = sampleMemory cell)
        ∧ shiftX.get s.memory = shiftX.get sampleMemory :=
  ⟨by decide, by decide, by decide, by decide, by decide, by decide, by decide,
    TransformList_raises_distinct translatePoint shiftX sampleMemory [objP, objQ, objR] 1 2
      (by decide) (by decide) (by decide) (by decide) (by decide) (by decide) (by decide)⟩

/-- C9 counterexample, on two lists, with `t` the translation by `(1, 0, 0)`,
`p = (1, 0, 0)` and `q` not a vector. On `[p, q, p]` the call raises at index
1, and the point at index 2, which is `p` again, is no longer what it was: it
is `(2, 0, 0)`. On `[t.location, p, q]`, two distinct points and then `q`, the
call raises at index 2 after it has moved the location of `t`, and the point
at index 1 is `(3, 0, 0)`, not `TransformPoint(t, old p)`, which is
`(2, 0, 0)`. -/
theorem TransformList_raises_aliased_counterexample :
    (∃ s, TransformList translatePoint 4 shiftX sampleMemory [objP, objQ, objP] = .raised s
      ∧ IsVector3D objP ∧ ¬ IsVector3D objQ
      ∧ s.calls = [0]
      ∧ [objP, objQ, objP][2]? = some objP
      ∧ extractVector3D objP = some 0
      ∧ sampleMemory 0 = ⟨1, 0, 0⟩
      ∧ s.memory 0 = ⟨2, 0, 0⟩
      ∧ s.memory 0 ≠ sampleMemory 0)
    ∧ (∃ s, TransformList translatePoint 4 shiftX sampleMemory [objTLocation, objP, objQ]
          = .raised s
      ∧ IsVector3D objTLocation ∧ IsVector3D objP ∧ ¬ IsVector3D objQ
      ∧ (cellsOf [objTLocation, objP, objQ]).Nodup
      ∧ s.calls = [0, 1]
      ∧ translatePoint (shiftX.get sampleMemory) (sampleMemory 0) = ⟨2, 0, 0⟩
      ∧ s.memory 0 = ⟨3, 0, 0⟩
      ∧ s.memory 0 ≠ translatePoint (shiftX.get sampleMemory) (sampleMemory 0)) :=
  ⟨⟨_, rfl, by decide, by decide, rfl, by decide, by decide, by decide, by decide,
      by decide⟩,
    ⟨_, rfl, by decide, by decide, by decide, by decide, rfl, by decide, by decide,
      by decide⟩⟩

end PointTransformTheorems

end Geom
